import Mathlib

/-!
Shallow embedding of the adaptive quiz engine (question_bank.py, session.py).

Conventions of the embedding:
* Python floats are modelled as rationals (`ℚ`) inside the mutable state and,
  where the code calls `math.exp`, the computation is carried out in `ℝ`.
* Python `datetime` values are modelled as integer epoch seconds (`ℤ`);
  `timedelta.days` is floor division by 86400 (`Int.fdiv`), matching Python.
* Python dicts are modelled as association lists (`List (key × value)`);
  dict lookup is first-match lookup, dict item mutation is `setAssoc`.
* A raised Python exception is modelled by `Option`/`Except` error results.
* `random.sample` / `random.choice` / `random.shuffle` are modelled by an
  abstract `Sampler` supplied as an argument; `Sampler.Valid` captures the
  guarantees Python's `random` module gives for those calls.
-/

namespace HskQuiz

/-- Immutable question content; only the fields the engine reads are kept
(`id` and `category`; text and options never influence the model). -/
structure Question where
  id : ℤ
  category : String
deriving DecidableEq, Repr

/-- Mutable learning state of one question (class `QuestionState`). -/
structure QuestionState where
  difficulty : ℚ := 1
  times_shown : ℤ := 0
  times_correct : ℤ := 0
  consecutive_wrong : ℤ := 0
  last_5_attempts : List Bool := []
  time_to_answer : List ℚ := []
  last_seen : Option ℤ := none
  mastery_level : ℚ := 0
  category : String := ""
deriving DecidableEq, Repr

/-- Per-category aggregate counters (`category_stats` dict values). -/
structure CatStats where
  total_attempts : ℤ := 0
  correct_attempts : ℤ := 0
deriving DecidableEq, Repr

/-- The question bank: questions dict, per-question states dict,
per-category stats dict (class `QuestionBank`). -/
structure QuestionBank where
  questions : List Question
  states : List (ℤ × QuestionState)
  category_stats : List (String × CatStats)
deriving DecidableEq, Repr

variable {α : Type} {β : Type}

/-- First-match association-list lookup (Python dict read `d[k]`,
`none` models a `KeyError`). -/
def lookupA [DecidableEq α] (l : List (α × β)) (k : α) : Option β :=
  match l with
  | [] => none
  | p :: rest => if p.1 = k then some p.2 else lookupA rest k

/-- Replace the value stored at key `k` (Python dict item mutation). -/
def setAssoc [DecidableEq α] (l : List (α × β)) (k : α) (v : β) : List (α × β) :=
  l.map (fun p => if p.1 = k then (k, v) else p)

/-- `_initialize_category_stats`: zeroed counters for every distinct category
(Python builds a set; we keep first-occurrence order). -/
def initCategoryStats (qs : List Question) : List (String × CatStats) :=
  ((qs.map Question.category).dedup).map (fun c => (c, {}))

/-- `QuestionBank.__init__`: index questions by id and give each a default
state carrying its category (duplicate ids are assumed absent, as the
question-set loader guarantees). -/
def mkBank (qs : List Question) : QuestionBank :=
  { questions := qs
    states := qs.map (fun q => (q.id, { category := q.category }))
    category_stats := initCategoryStats qs }

/-- Whole days between two epoch-second instants: `(now - then).days` on a
Python `timedelta` is floor division of the second count by 86400. -/
def days_between (now seen : ℤ) : ℤ :=
  (now - seen).fdiv 86400

/-- `QuestionBank.calculate_decay` (reads only the one state): 1.0 when the
question was never seen, otherwise `1 - mastery_level * (1 - exp(-days/30))`. -/
noncomputable def calculate_decay (s : QuestionState) (now : ℤ) : ℝ :=
  match s.last_seen with
  | none => 1
  | some seen =>
      1 - (s.mastery_level : ℝ) * (1 - Real.exp (-((days_between now seen : ℤ) : ℝ) / 30))

/-- `QuestionBank.calculate_pattern_score` (reads only the one state):
base difficulty, degrading/improving trend factor over the last five
attempts, speed factor over the last five response times, then decay. -/
noncomputable def calculate_pattern_score (s : QuestionState) (now : ℤ) : ℝ :=
  let score : ℝ := (s.difficulty : ℝ)
  let score :=
    if 5 ≤ s.last_5_attempts.length then
      let recent_performance := s.last_5_attempts.drop (s.last_5_attempts.length - 5)
      let early_correct := (recent_performance.take 3).countP id
      let late_correct := (recent_performance.drop 3).countP id
      if late_correct < early_correct then score * 1.5
      else if early_correct < late_correct then score * 0.8
      else score
    else score
  let score :=
    if s.time_to_answer ≠ [] then
      let recent_times := s.time_to_answer.drop (s.time_to_answer.length - 5)
      let avg_time : ℝ := ((recent_times.sum : ℚ) : ℝ) / (recent_times.length : ℝ)
      score * min 2 (avg_time / 5)
    else score
  score * calculate_decay s now

/-- `QuestionBank.calculate_category_difficulty`: mean difficulty over the
questions of a category, 1.0 when the category has none. Looks states up by
id; a missing state (Python `KeyError`) is treated as contributing the
default, which never happens on banks whose state dict covers the
question dict (the only banks the code constructs). -/
def calculate_category_difficulty (b : QuestionBank) (category : String) : ℚ :=
  let cat_questions := (b.questions.filter (fun q => q.category = category)).map Question.id
  if cat_questions = [] then 1
  else (cat_questions.map (fun qid => ((lookupA b.states qid).getD {}).difficulty)).sum
        / (cat_questions.length : ℚ)

/-- The trend ("pattern analysis") multiplier exactly as the specification
words it: with at least five recorded attempts, 1.5 when the earliest three
of the last five hold more correct answers than the latest two, 0.8 when
fewer, 1 otherwise. -/
def patternFactor (s : QuestionState) : ℝ :=
  if 5 ≤ s.last_5_attempts.length then
    let window := s.last_5_attempts.drop (s.last_5_attempts.length - 5)
    let early := (window.take 3).countP id
    let late := (window.drop 3).countP id
    if late < early then 1.5 else if early < late then 0.8 else 1
  else 1

/-- The speed multiplier exactly as the specification words it: with any
response times recorded, the mean of the last five divided by 5, clamped to
at most 2; otherwise 1. -/
noncomputable def speedFactor (s : QuestionState) : ℝ :=
  if s.time_to_answer ≠ [] then
    let recent := s.time_to_answer.drop (s.time_to_answer.length - 5)
    min 2 ((((recent.sum : ℚ) : ℝ) / (recent.length : ℝ)) / 5)
  else 1

/-- Abstract source of randomness standing for Python `random.sample`,
`random.choice` and `random.shuffle`. -/
structure Sampler where
  sample : List ℤ → ℕ → List ℤ
  choice : List ℤ → ℤ
  shuffle : List ℤ → List ℤ

/-- The guarantees Python `random` gives: `sample pop k` (for `k ≤ |pop|`)
returns `k` positions of `pop` without replacement (hence distinct values
when `pop` has no duplicates), `choice` returns a member of a non-empty
list, `shuffle` permutes. -/
def Sampler.Valid (r : Sampler) : Prop :=
  (∀ l k, k ≤ l.length →
      (r.sample l k).length = k ∧ (∀ x ∈ r.sample l k, x ∈ l) ∧
      (l.Nodup → (r.sample l k).Nodup)) ∧
  (∀ l, l ≠ [] → r.choice l ∈ l) ∧
  (∀ l, (r.shuffle l).Perm l)

/-- The `while len(selected) < adjusted_n` top-up loop of `select_questions`:
each pass appends one uniformly chosen not-yet-selected id or stops when
none remain. Each pass grows `selected` by one, so `adjusted_n` passes of
fuel are exactly enough. -/
def topUp (r : Sampler) (allIds : List ℤ) (adjusted_n : ℕ) :
    List ℤ → ℕ → List ℤ
  | selected, 0 => selected
  | selected, fuel + 1 =>
      if selected.length < adjusted_n then
        let remaining := allIds.filter (fun q => ! selected.contains q)
        if remaining = [] then selected
        else topUp r allIds adjusted_n (selected ++ [r.choice remaining]) fuel
      else selected

/-- `QuestionBank.select_questions`. `none` models the exception paths: the
`ZeroDivisionError` of the average-difficulty computation on an empty bank,
and the `KeyError` of a state lookup for a question id without a state (the
latter is unreachable for banks the code constructs). The iteration order
of Python's `set` difference for `random_pool` is determinized to question
order; only `Sampler.choice` and membership ever observe that list. -/
noncomputable def select_questions (r : Sampler) (b : QuestionBank) (n : ℕ)
    (now : ℤ) : Option (List ℤ) :=
  if b.states.length = 0 then none
  else if ¬ (b.questions.all (fun q => (lookupA b.states q.id).isSome)) then none
  else
    let fatigue_factor : ℚ :=
      ((b.states.filter (fun p => 3 < p.2.difficulty)).length : ℚ) / (b.states.length : ℚ)
    let adjusted_n : ℕ := (⌊(n : ℚ) * (1 - fatigue_factor * 0.3)⌋).toNat
    let question_scores : List (ℤ × ℝ) :=
      b.questions.map (fun q =>
        (q.id, calculate_pattern_score ((lookupA b.states q.id).getD {}) now * 0.7
                + ((calculate_category_difficulty b q.category : ℚ) : ℝ) * 0.3))
    let sorted := question_scores.mergeSort (fun a b => decide (b.2 ≤ a.2))
    let high_priority := (sorted.take (⌊(adjusted_n : ℚ) * 0.6⌋).toNat).map Prod.fst
    let untested := (b.questions.filter
        (fun q => ((lookupA b.states q.id).getD {}).times_shown = 0)).map Question.id
    let random_pool := (b.questions.map Question.id).filter
        (fun i => ! high_priority.contains i && ! untested.contains i)
    let selected :=
      r.sample high_priority (min high_priority.length (⌊(adjusted_n : ℚ) * 0.6⌋).toNat) ++
      r.sample untested (min untested.length (⌊(adjusted_n : ℚ) * 0.3⌋).toNat) ++
      r.sample random_pool (min random_pool.length (⌊(adjusted_n : ℚ) * 0.1⌋).toNat)
    let selected := topUp r (b.questions.map Question.id) adjusted_n selected adjusted_n
    some ((r.shuffle selected).take adjusted_n)

/-- The per-state part of `update_question_state`: basic stats, sliding
attempt window, then the correct/incorrect mastery and difficulty branch. -/
def updateState (s : QuestionState) (correct : Bool) (time_taken : ℚ) (now : ℤ) :
    QuestionState :=
  let s := { s with times_shown := s.times_shown + 1
                    last_seen := some now
                    time_to_answer := s.time_to_answer ++ [time_taken] }
  let attempts := s.last_5_attempts ++ [correct]
  let s := { s with last_5_attempts := if 5 < attempts.length then attempts.drop 1 else attempts }
  if correct then
    { s with times_correct := s.times_correct + 1
             consecutive_wrong := 0
             mastery_level := min 1 (s.mastery_level + 0.1)
             difficulty := max 1 (s.difficulty * 0.8) }
  else
    let cw : ℤ := s.consecutive_wrong + 1
    { s with consecutive_wrong := cw
             mastery_level := max 0 (s.mastery_level - 0.2)
             difficulty := s.difficulty + 2 * (1 + (cw : ℚ) * 0.5) }

/-- The category-counter part of `update_question_state`. -/
def updCat (c : CatStats) (correct : Bool) : CatStats :=
  { total_attempts := c.total_attempts + 1
    correct_attempts := c.correct_attempts + (if correct then 1 else 0) }

/-- `QuestionBank.update_question_state`. `none` models the `KeyError`
raised when the id has no state or no question, or the category has no
counter entry (Python would raise partway; the claims only concern the
success path, where all three lookups succeed). -/
def update_question_state (b : QuestionBank) (qid : ℤ) (correct : Bool)
    (time_taken : ℚ) (now : ℤ) : Option QuestionBank :=
  match lookupA b.states qid, b.questions.find? (fun q => q.id == qid) with
  | some s, some q =>
      match lookupA b.category_stats q.category with
      | some c =>
          some { b with
                  states := setAssoc b.states qid (updateState s correct time_taken now)
                  category_stats := setAssoc b.category_stats q.category (updCat c correct) }
      | none => none
  | _, _ => none

/-- One `states` entry of a snapshot, exactly the fields `export_state`
writes (note: no `time_to_answer`). `last_seen` is `none` for JSON null,
`some none` for a string `datetime.fromisoformat` rejects, and
`some (some t)` for a valid ISO-8601 string denoting instant `t`. -/
structure RawState where
  difficulty : ℚ
  times_shown : ℤ
  times_correct : ℤ
  consecutive_wrong : ℤ
  last_5_attempts : List Bool
  mastery_level : ℚ
  last_seen : Option (Option ℤ)
deriving DecidableEq, Repr

/-- A persisted snapshot. Each top-level key may be absent (`none`). A
`states` map key is `none` when the string does not parse as an integer
(`int(qid)` raises `ValueError`). -/
structure Snapshot where
  states : Option (List (Option ℤ × RawState)) := none
  category_stats : Option (List (String × CatStats)) := none
  timestamp : Option ℤ := none
deriving DecidableEq, Repr

/-- The `states` entry `export_state` writes for one question state. -/
def rawOfState (s : QuestionState) : RawState :=
  { difficulty := s.difficulty
    times_shown := s.times_shown
    times_correct := s.times_correct
    consecutive_wrong := s.consecutive_wrong
    last_5_attempts := s.last_5_attempts
    mastery_level := s.mastery_level
    last_seen := s.last_seen.map some }

/-- `QuestionBank.export_state`: every state in full (minus response times,
which the code never writes), the category counters, and a timestamp. -/
def export_state (b : QuestionBank) (now : ℤ) : Snapshot :=
  { states := some (b.states.map (fun p => (some p.1, rawOfState p.2)))
    category_stats := some b.category_stats
    timestamp := some now }

/-- One iteration of the `import_state` loop: parse the id, look the fresh
state up (`KeyError` when the id is not in the new question set), overwrite
the serialized fields, and parse `last_seen` when it is non-null. -/
def applyEntry (bank : QuestionBank) (key : Option ℤ) (rs : RawState) :
    Except String QuestionBank :=
  match key with
  | none => Except.error "ValueError: id does not parse as an integer"
  | some qid =>
      match lookupA bank.states qid with
      | none => Except.error "KeyError: id not in the question set"
      | some s =>
          match rs.last_seen with
          | some none => Except.error "ValueError: invalid isoformat string"
          | ls =>
              let newLast : Option ℤ :=
                match ls with
                | some (some t) => some t
                | _ => s.last_seen
              let s2 := { s with difficulty := rs.difficulty
                                 times_shown := rs.times_shown
                                 times_correct := rs.times_correct
                                 consecutive_wrong := rs.consecutive_wrong
                                 last_5_attempts := rs.last_5_attempts
                                 mastery_level := rs.mastery_level
                                 last_seen := newLast }
              Except.ok { bank with states := setAssoc bank.states qid s2 }

/-- The `for qid, state_dict in state_data['states'].items()` loop. -/
def importEntries (bank : QuestionBank) :
    List (Option ℤ × RawState) → Except String QuestionBank
  | [] => Except.ok bank
  | e :: rest =>
      match applyEntry bank e.1 e.2 with
      | Except.error msg => Except.error msg
      | Except.ok bank2 => importEntries bank2 rest

/-- `QuestionBank.import_state`: build a fresh bank for the question set,
replay every snapshot state entry onto it (a missing `states` key is a
`KeyError`), then take the snapshot's category counters when present and
freshly initialized ones otherwise (`dict.get` with a default — never an
error). -/
def import_state (qs : List Question) (snap : Snapshot) :
    Except String QuestionBank :=
  match snap.states with
  | none => Except.error "KeyError: states"
  | some entries =>
      match importEntries (mkBank qs) entries with
      | Except.error msg => Except.error msg
      | Except.ok bank =>
          Except.ok { bank with
            category_stats := snap.category_stats.getD (initCategoryStats qs) }

/-- Session counters (`SessionStats`); times are epoch-second rationals. -/
structure SessionStats where
  correct : ℤ := 0
  wrong : ℤ := 0
  skipped : ℤ := 0
  streak : ℤ := 0
  best_streak : ℤ := 0
  start_time : ℚ := 0
  question_start_time : ℚ := 0
  times_per_category : List (String × List ℚ) := []
deriving DecidableEq, Repr

/-- A quiz session (`QuizSession`): the bank, the pending round, the
deferred skip list and the counters. -/
structure QuizSession where
  bank : QuestionBank
  current_round : List ℤ
  skipped : List ℤ
  stats : SessionStats
deriving DecidableEq, Repr

/-- Append a response time to the session's per-category list, creating the
category's list on first use. -/
def addCategoryTime (l : List (String × List ℚ)) (category : String) (t : ℚ) :
    List (String × List ℚ) :=
  match lookupA l category with
  | none => l ++ [(category, [t])]
  | some ts => setAssoc l category (ts ++ [t])

/-- `QuizSession.handle_answer`. Early-returns the session untouched when
no question is pending. `now` is the wall clock (seconds), `dnow` the same
instant as a datetime for the bank update; `none` models the `KeyError`
paths of the bank update (unreachable when the round came from the bank). -/
def handle_answer (s : QuizSession) (correct : Bool) (now : ℚ) (dnow : ℤ) :
    Option QuizSession :=
  match s.current_round with
  | [] => some s
  | qid :: rest =>
      let time_taken := now - s.stats.question_start_time
      match update_question_state s.bank qid correct time_taken dnow,
            s.bank.questions.find? (fun q => q.id == qid) with
      | some bank2, some q =>
          let st := s.stats
          let st := { st with times_per_category :=
                        addCategoryTime st.times_per_category q.category time_taken }
          let st :=
            if correct then
              { st with correct := st.correct + 1
                        streak := st.streak + 1
                        best_streak := max st.best_streak (st.streak + 1) }
            else
              { st with wrong := st.wrong + 1, streak := 0 }
          some { s with bank := bank2
                        current_round := rest
                        stats := { st with question_start_time := now } }
      | _, _ => none

/-- `QuizSession.handle_skip`. Early-returns the session untouched when no
question is pending; otherwise moves the head of the round to the tail of
the skip list, counts the skip and restarts the question timer. -/
def handle_skip (s : QuizSession) (now : ℚ) : QuizSession :=
  match s.current_round with
  | [] => s
  | qid :: rest =>
      { s with current_round := rest
               skipped := s.skipped ++ [qid]
               stats := { s.stats with skipped := s.stats.skipped + 1
                                       question_start_time := now } }

/-- A one-question bank used as concrete input by several witnesses. -/
def bankA : QuestionBank := mkBank [{ id := 1, category := "A" }]

/-- A session five questions into a round, nothing skipped yet. -/
def sess5 : QuizSession :=
  { bank := bankA, current_round := [1, 2, 3, 4, 5], skipped := [], stats := {} }

/-- A session in review mode: nothing pending, one question deferred. -/
def sessR : QuizSession :=
  { bank := bankA, current_round := [], skipped := [7], stats := {} }

/-- A state with full mastery seen thirty days (2592000 seconds) ago. -/
def stateW : QuestionState := { mastery_level := 1, last_seen := some 0 }

/-- A state with a degrading attempt pattern and one slow response. -/
def stateP : QuestionState :=
  { difficulty := 2
    last_5_attempts := [true, true, true, false, false]
    time_to_answer := [10] }

/-- A fresh one-question bank answered incorrectly three times in a row. -/
def thriceWrong : Option QuestionBank :=
  (update_question_state bankA 1 false 1 0).bind
    (fun b2 => (update_question_state b2 1 false 1 0).bind
      (fun b3 => update_question_state b3 1 false 1 0))

/-- The state a successful `import_state` loop iteration leaves for an id:
the serialized fields overwrite the current ones, `last_seen` only when the
snapshot holds a (valid) timestamp, and `time_to_answer` and `category`
stay as they were (the snapshot has neither). -/
def mergedState (s : QuestionState) (rs : RawState) : QuestionState :=
  { s with difficulty := rs.difficulty
           times_shown := rs.times_shown
           times_correct := rs.times_correct
           consecutive_wrong := rs.consecutive_wrong
           last_5_attempts := rs.last_5_attempts
           mastery_level := rs.mastery_level
           last_seen := match rs.last_seen with
                        | some (some t) => some t
                        | _ => s.last_seen }

/-- A learning state with recorded history, including a response time. -/
def stateT : QuestionState :=
  { difficulty := 4
    times_shown := 2
    times_correct := 1
    consecutive_wrong := 1
    last_5_attempts := [true, false]
    time_to_answer := [2, 7]
    last_seen := some 9
    mastery_level := 1
    category := "A" }

/-- A one-question bank carrying the history of `stateT`. -/
def bankT : QuestionBank :=
  { questions := [{ id := 1, category := "A" }]
    states := [(1, stateT)]
    category_stats := [("A", { total_attempts := 2, correct_attempts := 1 })] }

/-- A snapshot with an empty `states` map and no `category_stats` key. -/
def snapNoCats : Snapshot := { states := some [] }

/-- A deterministic but `Sampler.Valid` source of randomness: `sample`
takes the first `k`, `choice` the head, `shuffle` does nothing. -/
def takeSampler : Sampler :=
  { sample := fun l k => l.take k
    choice := fun l => l.headD 0
    shuffle := fun l => l }

/-- A well-formed snapshot entry for a never-seen question. -/
def rawGood : RawState :=
  { difficulty := 1
    times_shown := 0
    times_correct := 0
    consecutive_wrong := 0
    last_5_attempts := []
    mastery_level := 0
    last_seen := none }

/-- A snapshot entry whose `last_seen` string is not a valid timestamp. -/
def rawBadTime : RawState := { rawGood with last_seen := some none }

theorem lookupA_setAssoc_self [DecidableEq α] (l : List (α × β)) (k : α) (v w : β)
    (h : lookupA l k = some w) : lookupA (setAssoc l k v) k = some v := by
  induction l with
  | nil => simp [lookupA] at h
  | cons p rest ih =>
    by_cases hp : p.1 = k
    · simp [lookupA, setAssoc, hp]
    · simp [lookupA, setAssoc, hp] at h ⊢
      exact ih h

theorem lookupA_setAssoc_ne [DecidableEq α] (l : List (α × β)) (k k2 : α) (v : β)
    (h : k2 ≠ k) : lookupA (setAssoc l k v) k2 = lookupA l k2 := by
  induction l with
  | nil => rfl
  | cons p rest ih =>
    show lookupA ((if p.1 = k then (k, v) else p) :: setAssoc rest k v) k2
        = lookupA (p :: rest) k2
    by_cases hp : p.1 = k
    · rw [if_pos hp]
      simp [lookupA, Ne.symm h, hp, ih]
    · rw [if_neg hp]
      by_cases hk2 : p.1 = k2
      · simp [lookupA, hk2]
      · simp [lookupA, hk2, ih]

theorem lookupA_mem [DecidableEq α] (l : List (α × β)) (k : α) (v : β)
    (h : lookupA l k = some v) : (k, v) ∈ l := by
  induction l with
  | nil => simp [lookupA] at h
  | cons p rest ih =>
    by_cases hp : p.1 = k
    · simp [lookupA, hp] at h
      cases p
      simp_all
    · simp [lookupA, hp] at h
      exact List.mem_cons_of_mem _ (ih h)

theorem lookupA_isSome_setAssoc [DecidableEq α] (l : List (α × β)) (k k2 : α) (v : β) :
    (lookupA (setAssoc l k v) k2).isSome = (lookupA l k2).isSome := by
  induction l with
  | nil => rfl
  | cons p rest ih =>
    show (lookupA ((if p.1 = k then (k, v) else p) :: setAssoc rest k v) k2).isSome
        = (lookupA (p :: rest) k2).isSome
    by_cases hp : p.1 = k
    · rw [if_pos hp]
      by_cases hk2 : k = k2
      · simp [lookupA, hk2, hp ▸ hk2]
      · simp [lookupA, hk2, hp ▸ hk2, ih]
    · rw [if_neg hp]
      by_cases hk2 : p.1 = k2
      · simp [lookupA, hk2]
      · simp [lookupA, hk2, ih]

/-- Claim C7: with a non-empty pending round, `handle_skip` removes exactly
the head of the round and appends it to the tail of the skip list (five
pending and none skipped become four and one), increments only the skip
counter, restarts the question timer, and leaves the bank (hence every
LearningState and CategoryStats) and every other session counter
unchanged. -/
theorem c7_handle_skip_frame (s : QuizSession) (now : ℚ) (qid : ℤ)
    (rest : List ℤ) (h : s.current_round = qid :: rest) :
    (handle_skip s now).current_round = rest ∧
    (handle_skip s now).skipped = s.skipped ++ [qid] ∧
    (handle_skip s now).bank = s.bank ∧
    (handle_skip s now).stats.skipped = s.stats.skipped + 1 ∧
    (handle_skip s now).stats.correct = s.stats.correct ∧
    (handle_skip s now).stats.wrong = s.stats.wrong ∧
    (handle_skip s now).stats.streak = s.stats.streak ∧
    (handle_skip s now).stats.best_streak = s.stats.best_streak ∧
    (handle_skip s now).stats.start_time = s.stats.start_time ∧
    (handle_skip s now).stats.times_per_category = s.stats.times_per_category ∧
    (handle_skip s now).stats.question_start_time = now ∧
    (s.current_round.length = 5 → (handle_skip s now).current_round.length = 4) ∧
    (s.skipped = [] → (handle_skip s now).skipped.length = 1) := by
  refine ⟨?_, ?_, ?_, ?_, ?_, ?_, ?_, ?_, ?_, ?_, ?_, ?_, ?_⟩ <;>
    simp [handle_skip, h]

/-- Witness for C7 on a concrete session with five pending ids. -/
theorem c7_witness :
    (handle_skip sess5 0).current_round.length = 4 ∧
    (handle_skip sess5 0).skipped.length = 1 ∧
    (handle_skip sess5 0).bank = sess5.bank := by
  have h := c7_handle_skip_frame sess5 0 1 [2, 3, 4, 5] rfl
  exact ⟨h.2.2.2.2.2.2.2.2.2.2.2.1 rfl, h.2.2.2.2.2.2.2.2.2.2.2.2 rfl, h.2.2.1⟩

/-- Claim C8: with an empty pending round — in particular in review mode,
when only the skip list is non-empty — both `handle_answer` and
`handle_skip` are error-free no-ops leaving the whole session (bank, round,
skip list, every counter and timer) unchanged. -/
theorem c8_empty_round_noop (s : QuizSession) (correct : Bool) (now : ℚ)
    (dnow : ℤ) (h : s.current_round = []) :
    handle_answer s correct now dnow = some s ∧ handle_skip s now = s := by
  constructor <;> simp [handle_answer, handle_skip, h]

/-- Witness for C8 on a concrete review-mode session. -/
theorem c8_witness :
    handle_answer sessR true 3 5 = some sessR ∧ handle_skip sessR 3 = sessR :=
  c8_empty_round_noop sessR true 3 5 rfl

theorem decay_eq_of_seen (s : QuestionState) (now seen : ℤ)
    (h : s.last_seen = some seen) :
    calculate_decay s now
      = 1 - (s.mastery_level : ℝ)
            * (1 - Real.exp (-((days_between now seen : ℤ) : ℝ) / 30)) := by
  simp [calculate_decay, h]

theorem decay_pos (s : QuestionState) (now : ℤ)
    (hm0 : 0 ≤ s.mastery_level) (hm1 : s.mastery_level ≤ 1)
    (hseen : ∀ t, s.last_seen = some t → t ≤ now) :
    0 < calculate_decay s now := by
  match h : s.last_seen with
  | none => simp [calculate_decay, h]
  | some seen =>
      rw [decay_eq_of_seen s now seen h]
      have hd : (0 : ℝ) ≤ ((days_between now seen : ℤ) : ℝ) := by
        have := Int.fdiv_nonneg (a := now - seen) (b := 86400)
          (by have := hseen seen h; omega) (by omega)
        exact_mod_cast this
      have hE0 : 0 < Real.exp (-((days_between now seen : ℤ) : ℝ) / 30) :=
        Real.exp_pos _
      have hE1 : Real.exp (-((days_between now seen : ℤ) : ℝ) / 30) ≤ 1 := by
        rw [Real.exp_le_one_iff]
        have : (0 : ℝ) < 30 := by norm_num
        exact div_nonpos_of_nonpos_of_nonneg (by linarith) (by norm_num)
      have hmr0 : (0 : ℝ) ≤ (s.mastery_level : ℚ) := by exact_mod_cast hm0
      have hmr1 : ((s.mastery_level : ℚ) : ℝ) ≤ 1 := by exact_mod_cast hm1
      nlinarith [mul_le_mul_of_nonneg_right hmr1
        (by linarith : (0 : ℝ) ≤ 1 - Real.exp (-((days_between now seen : ℤ) : ℝ) / 30))]

theorem decay_le_one (s : QuestionState) (now : ℤ)
    (hm0 : 0 ≤ s.mastery_level)
    (hseen : ∀ t, s.last_seen = some t → t ≤ now) :
    calculate_decay s now ≤ 1 := by
  match h : s.last_seen with
  | none => simp [calculate_decay, h]
  | some seen =>
      rw [decay_eq_of_seen s now seen h]
      have hd : (0 : ℝ) ≤ ((days_between now seen : ℤ) : ℝ) := by
        have := Int.fdiv_nonneg (a := now - seen) (b := 86400)
          (by have := hseen seen h; omega) (by omega)
        exact_mod_cast this
      have hE1 : Real.exp (-((days_between now seen : ℤ) : ℝ) / 30) ≤ 1 := by
        rw [Real.exp_le_one_iff]
        exact div_nonpos_of_nonpos_of_nonneg (by linarith) (by norm_num)
      have hmr0 : (0 : ℝ) ≤ ((s.mastery_level : ℚ) : ℝ) := by exact_mod_cast hm0
      nlinarith

/-- Claim C4: `calculate_decay` is exactly 1 with no `last_seen`, otherwise
equals `1 - mastery_level * (1 - exp(-days/30))`; on any state whose
mastery lies in [0,1] and whose `last_seen` is not in the future the result
lies in (0, 1], and it is strictly below 1 once mastery is positive and at
least one whole day has passed. -/
theorem c4_calculate_decay (s : QuestionState) (now : ℤ)
    (hm0 : 0 ≤ s.mastery_level) (hm1 : s.mastery_level ≤ 1)
    (hseen : ∀ t, s.last_seen = some t → t ≤ now) :
    (s.last_seen = none → calculate_decay s now = 1) ∧
    (∀ t, s.last_seen = some t →
      calculate_decay s now
        = 1 - (s.mastery_level : ℝ)
              * (1 - Real.exp (-((days_between now t : ℤ) : ℝ) / 30))) ∧
    0 < calculate_decay s now ∧ calculate_decay s now ≤ 1 ∧
    (∀ t, s.last_seen = some t → 0 < s.mastery_level → 0 < days_between now t →
      calculate_decay s now < 1) := by
  refine ⟨fun h => by simp [calculate_decay, h],
          fun t ht => decay_eq_of_seen s now t ht,
          decay_pos s now hm0 hm1 hseen,
          decay_le_one s now hm0 hseen,
          fun t ht hm hd => ?_⟩
  rw [decay_eq_of_seen s now t ht]
  have hdr : (0 : ℝ) < ((days_between now t : ℤ) : ℝ) := by exact_mod_cast hd
  have hE1 : Real.exp (-((days_between now t : ℤ) : ℝ) / 30) < 1 := by
    rw [Real.exp_lt_one_iff]
    exact div_neg_of_neg_of_pos (by linarith) (by norm_num)
  have hE0 : 0 < Real.exp (-((days_between now t : ℤ) : ℝ) / 30) := Real.exp_pos _
  have hmr : (0 : ℝ) < ((s.mastery_level : ℚ) : ℝ) := by exact_mod_cast hm
  nlinarith

/-- Witness for C4: on `stateW` the decay is strictly between 0 and 1. -/
theorem c4_witness :
    0 < calculate_decay stateW 2592000 ∧ calculate_decay stateW 2592000 < 1 := by
  have h := c4_calculate_decay stateW 2592000 (by decide) (by decide)
    (by intro t ht; injection ht with h2; subst h2; decide)
  exact ⟨h.2.2.1, h.2.2.2.2 0 rfl (by decide) (by decide)⟩

theorem patternFactor_nonneg (s : QuestionState) : 0 ≤ patternFactor s := by
  simp only [patternFactor]
  split_ifs <;> norm_num

theorem speedFactor_nonneg (s : QuestionState)
    (ht : ∀ x ∈ s.time_to_answer, 0 ≤ x) : 0 ≤ speedFactor s := by
  unfold speedFactor
  split_ifs with h
  · refine le_min (by norm_num) (div_nonneg (div_nonneg ?_ ?_) (by norm_num))
    · have hsum : (0 : ℚ) ≤ (s.time_to_answer.drop (s.time_to_answer.length - 5)).sum :=
        List.sum_nonneg (fun x hx => ht x (List.mem_of_mem_drop hx))
      exact_mod_cast hsum
    · positivity
  · norm_num

/-- Claim C5: `calculate_pattern_score` is the difficulty multiplied by the
trend factor (1.5 degrading / 0.8 improving / 1 otherwise, judged on the
earliest three versus the latest two of the last five attempts), then by
the speed factor (mean of the last five response times over 5, clamped at
2, when any are recorded), then by the decay of the same state; and on any
state with non-negative difficulty and response times, mastery in [0,1]
and no future `last_seen`, the result is non-negative. -/
theorem c5_calculate_pattern_score (s : QuestionState) (now : ℤ)
    (hd : 0 ≤ s.difficulty)
    (ht : ∀ x ∈ s.time_to_answer, 0 ≤ x)
    (hm0 : 0 ≤ s.mastery_level) (hm1 : s.mastery_level ≤ 1)
    (hseen : ∀ t, s.last_seen = some t → t ≤ now) :
    calculate_pattern_score s now
      = (s.difficulty : ℝ) * patternFactor s * speedFactor s
          * calculate_decay s now ∧
    0 ≤ calculate_pattern_score s now := by
  have heq : calculate_pattern_score s now
      = (s.difficulty : ℝ) * patternFactor s * speedFactor s
          * calculate_decay s now := by
    by_cases h5 : 5 ≤ s.last_5_attempts.length <;>
      by_cases hta : s.time_to_answer = [] <;>
        simp only [calculate_pattern_score, patternFactor, speedFactor, h5, hta,
          ne_eq, not_true_eq_false, not_false_eq_true, if_true, if_false,
          ite_true, ite_false] <;>
      (try split_ifs) <;> ring
  refine ⟨heq, ?_⟩
  rw [heq]
  have hdr : (0 : ℝ) ≤ (s.difficulty : ℚ) := by exact_mod_cast hd
  exact mul_nonneg
    (mul_nonneg (mul_nonneg hdr (patternFactor_nonneg s)) (speedFactor_nonneg s ht))
    (decay_pos s now hm0 hm1 hseen).le

/-- Witness for C5 on a concrete degrading-pattern state. -/
theorem c5_witness :
    calculate_pattern_score stateP 0
      = (stateP.difficulty : ℝ) * patternFactor stateP * speedFactor stateP
          * calculate_decay stateP 0 ∧
    0 ≤ calculate_pattern_score stateP 0 :=
  c5_calculate_pattern_score stateP 0 (by decide) (by decide) (by decide)
    (by decide) (fun t ht => nomatch ht)

/-- Claim C6: `update_question_state` increments `times_shown`, stamps
`last_seen`, appends the response time, appends the outcome to the attempt
window evicting the oldest entry beyond length five, and bumps the owning
category's counters; on a correct answer it increments `times_correct`,
clears `consecutive_wrong`, raises mastery by 0.1 (capped at 1) and scales
difficulty by 0.8 (floored at 1); on a wrong answer it increments
`consecutive_wrong`, lowers mastery by 0.2 (floored at 0) and adds
`2 * (1 + consecutive_wrong * 0.5)` with the already-incremented counter —
so a fresh question missed three times in a row ends at difficulty 13. -/
theorem c6_update_question_state :
    (∀ (b : QuestionBank) (qid : ℤ) (correct : Bool) (t : ℚ) (now : ℤ)
       (st : QuestionState) (q : Question) (cs : CatStats),
      lookupA b.states qid = some st →
      b.questions.find? (fun q2 => q2.id == qid) = some q →
      lookupA b.category_stats q.category = some cs →
      ∃ b2, update_question_state b qid correct t now = some b2 ∧
        (∃ st2, lookupA b2.states qid = some st2 ∧
          st2.times_shown = st.times_shown + 1 ∧
          st2.last_seen = some now ∧
          st2.time_to_answer = st.time_to_answer ++ [t] ∧
          st2.last_5_attempts
            = (if 5 < (st.last_5_attempts ++ [correct]).length
               then (st.last_5_attempts ++ [correct]).drop 1
               else st.last_5_attempts ++ [correct]) ∧
          (correct = true → st2.times_correct = st.times_correct + 1 ∧
            st2.consecutive_wrong = 0 ∧
            st2.mastery_level = min 1 (st.mastery_level + 0.1) ∧
            st2.difficulty = max 1 (st.difficulty * 0.8)) ∧
          (correct = false → st2.times_correct = st.times_correct ∧
            st2.consecutive_wrong = st.consecutive_wrong + 1 ∧
            st2.mastery_level = max 0 (st.mastery_level - 0.2) ∧
            st2.difficulty
              = st.difficulty + 2 * (1 + ((st.consecutive_wrong : ℚ) + 1) * 0.5))) ∧
        (∃ cs2, lookupA b2.category_stats q.category = some cs2 ∧
          cs2.total_attempts = cs.total_attempts + 1 ∧
          cs2.correct_attempts
            = cs.correct_attempts + (if correct then 1 else 0))) ∧
    (match thriceWrong with
     | some b => (lookupA b.states 1).map (fun st => st.difficulty)
     | none => none) = some 13 := by
  constructor
  · intro b qid correct t now st q cs h1 h2 h3
    refine ⟨{ b with
        states := setAssoc b.states qid (updateState st correct t now)
        category_stats := setAssoc b.category_stats q.category (updCat cs correct) },
      by simp [update_question_state, h1, h2, h3], ?_, ?_⟩
    · refine ⟨updateState st correct t now,
        lookupA_setAssoc_self _ _ _ _ h1, ?_, ?_, ?_, ?_, ?_, ?_⟩ <;>
        cases correct <;>
        simp [updateState]
    · refine ⟨updCat cs correct, lookupA_setAssoc_self _ _ _ _ h3, by simp [updCat], ?_⟩
      cases correct <;> simp [updCat]
  · norm_num [thriceWrong, bankA, mkBank, initCategoryStats, update_question_state,
      updateState, updCat, lookupA, setAssoc, max_def, min_def]

/-- Witness for C6: one wrong answer on the fresh bank raises the
difficulty from 1 to 1 + 2·(1 + 1·0.5) = 4. -/
theorem c6_witness :
    ∃ b2, update_question_state bankA 1 false 2 5 = some b2 ∧
      ∃ st2, lookupA b2.states 1 = some st2 ∧ st2.difficulty = 4 := by
  obtain ⟨b2, hb2, ⟨st2, hl, hshown, hlsn, htta, hla, hct, hcf⟩, hcs⟩ :=
    c6_update_question_state.1 bankA 1 false 2 5 { category := "A" }
      { id := 1, category := "A" } {} (by decide) (by decide) (by decide)
  refine ⟨b2, hb2, st2, hl, ?_⟩
  rw [(hcf rfl).2.2.2]
  norm_num

/-- Claim C10: `update_question_state qid` mutates only the state keyed by
`qid` and the counters of the owning category: the question list, the state
of every other id and the counters of every other category are unchanged. -/
theorem c10_update_frame (b : QuestionBank) (qid : ℤ) (correct : Bool)
    (t : ℚ) (now : ℤ) (st : QuestionState) (q : Question) (cs : CatStats)
    (h1 : lookupA b.states qid = some st)
    (h2 : b.questions.find? (fun q2 => q2.id == qid) = some q)
    (h3 : lookupA b.category_stats q.category = some cs) :
    ∃ b2, update_question_state b qid correct t now = some b2 ∧
      b2.questions = b.questions ∧
      (∀ qid2, qid2 ≠ qid → lookupA b2.states qid2 = lookupA b.states qid2) ∧
      (∀ cat, cat ≠ q.category →
        lookupA b2.category_stats cat = lookupA b.category_stats cat) := by
  refine ⟨{ b with
      states := setAssoc b.states qid (updateState st correct t now)
      category_stats := setAssoc b.category_stats q.category (updCat cs correct) },
    by simp [update_question_state, h1, h2, h3], rfl, ?_, ?_⟩
  · intro qid2 hne
    exact lookupA_setAssoc_ne _ _ _ _ hne
  · intro cat hne
    exact lookupA_setAssoc_ne _ _ _ _ hne

/-- Witness for C10: updating question 1 of the one-question bank leaves
the lookup of any other id and any other category unchanged. -/
theorem c10_witness :
    ∃ b2, update_question_state bankA 1 true 2 5 = some b2 ∧
      lookupA b2.states 2 = lookupA bankA.states 2 ∧
      lookupA b2.category_stats "B" = lookupA bankA.category_stats "B" := by
  obtain ⟨b2, hb2, hq, hs, hc⟩ :=
    c10_update_frame bankA 1 true 2 5 { category := "A" }
      { id := 1, category := "A" } {} (by decide) (by decide) (by decide)
  exact ⟨b2, hb2, hs 2 (by decide), hc "B" (by decide)⟩

theorem applyEntry_ok (bank : QuestionBank) (qid : ℤ) (rs : RawState)
    (s : QuestionState) (h : lookupA bank.states qid = some s)
    (hls : rs.last_seen ≠ some none) :
    applyEntry bank (some qid) rs
      = Except.ok { bank with
          states := setAssoc bank.states qid (mergedState s rs) } := by
  match hrs : rs.last_seen with
  | none => simp [applyEntry, h, hrs, mergedState]
  | some none => exact absurd hrs hls
  | some (some t) => simp [applyEntry, h, hrs, mergedState]

theorem mergedState_rawOfState (s s0 : QuestionState)
    (hcat : s0.category = s.category) (htta : s0.time_to_answer = [])
    (hlsn : s0.last_seen = none) :
    mergedState s0 (rawOfState s) = { s with time_to_answer := [] } := by
  cases s0 with
  | mk d ts tc cw la tta ls m c =>
    cases s with
    | mk d2 ts2 tc2 cw2 la2 tta2 ls2 m2 c2 =>
      cases ls2 <;> simp_all [mergedState, rawOfState]

theorem importEntries_roundtrip (entries : List (ℤ × QuestionState)) :
    ∀ (bank : QuestionBank),
    (entries.map Prod.fst).Nodup →
    (∀ e ∈ entries, ∃ s0, lookupA bank.states e.1 = some s0 ∧
        s0.category = e.2.category ∧ s0.time_to_answer = [] ∧
        s0.last_seen = none) →
    ∃ bank2,
      importEntries bank (entries.map (fun p => (some p.1, rawOfState p.2)))
        = Except.ok bank2 ∧
      bank2.questions = bank.questions ∧
      bank2.category_stats = bank.category_stats ∧
      (∀ k, k ∉ entries.map Prod.fst →
        lookupA bank2.states k = lookupA bank.states k) ∧
      (∀ e ∈ entries,
        lookupA bank2.states e.1 = some { e.2 with time_to_answer := [] }) := by
  induction entries with
  | nil =>
      intro bank _ _
      exact ⟨bank, rfl, rfl, rfl, fun k _ => rfl, fun e he => absurd he (by simp)⟩
  | cons p rest ih =>
      intro bank hnodup hpres
      obtain ⟨s0, hlk, hcat, htta, hlsn⟩ := hpres p (List.mem_cons_self _ _)
      have hraw : (rawOfState p.2).last_seen ≠ some none := by
        cases hp2 : p.2.last_seen <;> simp [rawOfState, hp2]
      have happ := applyEntry_ok bank p.1 (rawOfState p.2) s0 hlk hraw
      have hcons : (p.1 :: rest.map Prod.fst).Nodup := by simpa using hnodup
      have hni : p.1 ∉ rest.map Prod.fst := (List.nodup_cons.mp hcons).1
      have hndrest : (rest.map Prod.fst).Nodup := (List.nodup_cons.mp hcons).2
      obtain ⟨bank2, hrun, hq, hc, hframe, hmem⟩ :=
        ih { bank with states := setAssoc bank.states p.1 (mergedState s0 (rawOfState p.2)) }
          hndrest
          (by
            intro e he
            obtain ⟨s1, h1, h2, h3, h4⟩ := hpres e (List.mem_cons_of_mem _ he)
            have hne : e.1 ≠ p.1 := by
              intro hq2
              exact hni (hq2 ▸ List.mem_map_of_mem Prod.fst he)
            refine ⟨s1, ?_, h2, h3, h4⟩
            show lookupA (setAssoc bank.states p.1 (mergedState s0 (rawOfState p.2))) e.1
                = some s1
            rw [lookupA_setAssoc_ne _ _ _ _ hne]
            exact h1)
      refine ⟨bank2, ?_, ?_, ?_, ?_, ?_⟩
      · simp only [List.map_cons, importEntries, happ]
        exact hrun
      · rw [hq]
      · rw [hc]
      · intro k hk
        have hk1 : k ≠ p.1 := by
          intro h
          exact hk (by simp [h])
        have hk2 : k ∉ rest.map Prod.fst := by
          intro h
          exact hk (by simp [h])
        rw [hframe k hk2]
        show lookupA (setAssoc bank.states p.1 (mergedState s0 (rawOfState p.2))) k
            = lookupA bank.states k
        exact lookupA_setAssoc_ne _ _ _ _ hk1
      · intro e he
        rcases List.mem_cons.mp he with he1 | he2
        · subst he1
          rw [hframe e.1 hni]
          show lookupA (setAssoc bank.states e.1 (mergedState s0 (rawOfState e.2))) e.1
              = some { e.2 with time_to_answer := [] }
          rw [lookupA_setAssoc_self _ _ _ _ hlk,
              mergedState_rawOfState e.2 s0 hcat htta hlsn]
        · exact hmem e he2

/-- Counterexample to claim C1 as stated: the export/import round trip does
not reproduce `response_times` — on a bank whose question 1 has recorded
response times `[2, 7]`, the reimported bank holds `[]` for that field. -/
theorem c1_counterexample :
    (match import_state bankT.questions (export_state bankT 0) with
     | Except.ok b2 => (lookupA b2.states 1).map (fun st => st.time_to_answer)
     | Except.error _ => none) = some [] ∧
    (lookupA bankT.states 1).map (fun st => st.time_to_answer) = some [2, 7] := by
  decide

/-- Claim C1 (amended): `export_state` followed by `import_state` on the
same question set reproduces, for every question id, every LearningState
field — difficulty, times_shown, times_correct, consecutive_wrong,
last_attempts, mastery_level, category and the exact last_seen timestamp —
except `response_times`, which the snapshot does not carry and which the
importer resets to empty; CategoryStats are reproduced identically. -/
theorem c1_roundtrip (b : QuestionBank) (now : ℤ)
    (hnodup : (b.states.map Prod.fst).Nodup)
    (hfresh : ∀ e ∈ b.states, ∃ s0,
        lookupA (mkBank b.questions).states e.1 = some s0 ∧
        s0.category = e.2.category ∧ s0.time_to_answer = [] ∧
        s0.last_seen = none) :
    ∃ b2, import_state b.questions (export_state b now) = Except.ok b2 ∧
      b2.category_stats = b.category_stats ∧
      b2.questions = b.questions ∧
      (∀ qid s, lookupA b.states qid = some s →
        lookupA b2.states qid = some { s with time_to_answer := [] }) := by
  obtain ⟨bank2, hrun, hq, hc, hframe, hmem⟩ :=
    importEntries_roundtrip b.states (mkBank b.questions) hnodup hfresh
  refine ⟨{ bank2 with category_stats := b.category_stats }, ?_, rfl, ?_, ?_⟩
  · simp [import_state, export_state, hrun]
  · rw [show ({ bank2 with category_stats := b.category_stats } : QuestionBank).questions
        = bank2.questions from rfl, hq]
    rfl
  · intro qid s h
    exact hmem (qid, s) (lookupA_mem _ _ _ h)

/-- Witness for the amended C1 on the concrete bank `bankT`. -/
theorem c1_witness :
    ∃ b2, import_state bankT.questions (export_state bankT 0) = Except.ok b2 ∧
      b2.category_stats = bankT.category_stats ∧
      lookupA b2.states 1 = some { stateT with time_to_answer := [] } := by
  obtain ⟨b2, h1, h2, h3, h4⟩ := c1_roundtrip bankT 0 (by decide)
    (by
      intro e he
      have : e = (1, stateT) := by
        simpa [bankT] using he
      subst this
      exact ⟨{ category := "A" }, by decide, by decide, by decide, by decide⟩)
  exact ⟨b2, h1, h2, h4 1 stateT (by rfl)⟩

theorem applyEntry_bad (bank : QuestionBank) (key : Option ℤ) (rs : RawState)
    (h : key = none ∨ rs.last_seen = some none) :
    ∃ msg, applyEntry bank key rs = Except.error msg := by
  rcases h with h | h
  · subst h
    exact ⟨_, rfl⟩
  · match key with
    | none => exact ⟨_, rfl⟩
    | some qid =>
        match hl : lookupA bank.states qid with
        | none =>
            exact ⟨"KeyError: id not in the question set",
              by simp [applyEntry, hl]⟩
        | some s =>
            exact ⟨"ValueError: invalid isoformat string",
              by simp [applyEntry, hl, h]⟩

theorem importEntries_error (entries : List (Option ℤ × RawState)) :
    ∀ bank, ((∃ rs, (none, rs) ∈ entries) ∨
      (∃ k rs, (k, rs) ∈ entries ∧ rs.last_seen = some none)) →
    ∃ msg, importEntries bank entries = Except.error msg := by
  induction entries with
  | nil =>
      intro bank h
      rcases h with ⟨rs, h⟩ | ⟨k, rs, h, _⟩ <;> simp at h
  | cons e rest ih =>
      intro bank h
      match happ : applyEntry bank e.1 e.2 with
      | Except.error msg => exact ⟨msg, by simp [importEntries, happ]⟩
      | Except.ok bank2 =>
          have hrest : (∃ rs, (none, rs) ∈ rest) ∨
              (∃ k rs, (k, rs) ∈ rest ∧ rs.last_seen = some none) := by
            rcases h with ⟨rs, hm⟩ | ⟨k, rs, hm, hls⟩
            · rcases List.mem_cons.mp hm with he | hr
              · exfalso
                obtain ⟨msg, hbad⟩ :=
                  applyEntry_bad bank e.1 e.2 (Or.inl (by rw [← he]))
                rw [happ] at hbad
                exact Except.noConfusion hbad
              · exact Or.inl ⟨rs, hr⟩
            · rcases List.mem_cons.mp hm with he | hr
              · exfalso
                obtain ⟨msg, hbad⟩ :=
                  applyEntry_bad bank e.1 e.2 (Or.inr (by rw [← he]; exact hls))
                rw [happ] at hbad
                exact Except.noConfusion hbad
              · exact Or.inr ⟨k, rs, hr, hls⟩
          obtain ⟨msg, hmsg⟩ := ih bank2 hrest
          exact ⟨msg, by simp [importEntries, happ, hmsg]⟩

theorem importEntries_ok_of_good (entries : List (Option ℤ × RawState)) :
    ∀ bank, (∀ e ∈ entries, ∃ qid, e.1 = some qid ∧
        (lookupA bank.states qid).isSome ∧ e.2.last_seen ≠ some none) →
    ∃ bank2, importEntries bank entries = Except.ok bank2 ∧
      bank2.questions = bank.questions ∧
      bank2.category_stats = bank.category_stats := by
  induction entries with
  | nil =>
      intro bank _
      exact ⟨bank, rfl, rfl, rfl⟩
  | cons e rest ih =>
      intro bank hgood
      obtain ⟨qid, hkey, hsome, hls⟩ := hgood e (List.mem_cons_self _ _)
      obtain ⟨s, hs⟩ := Option.isSome_iff_exists.mp hsome
      have happ := applyEntry_ok bank qid e.2 s hs hls
      obtain ⟨bank2, hrun, hq, hc⟩ :=
        ih { bank with states := setAssoc bank.states qid (mergedState s e.2) }
          (by
            intro e2 he2
            obtain ⟨qid2, hk2, hsome2, hls2⟩ := hgood e2 (List.mem_cons_of_mem _ he2)
            refine ⟨qid2, hk2, ?_, hls2⟩
            show (lookupA (setAssoc bank.states qid (mergedState s e.2)) qid2).isSome
            rw [lookupA_isSome_setAssoc]
            exact hsome2)
      refine ⟨bank2, ?_, by rw [hq], by rw [hc]⟩
      simp only [importEntries, hkey ▸ happ]
      exact hrun

/-- Counterexample to claim C9 as stated: a snapshot missing the
`category_stats` key imports without any error — the code substitutes
freshly initialized counters via `dict.get` with a default. -/
theorem c9_counterexample :
    import_state [{ id := 1, category := "A" }] snapNoCats
      = Except.ok (mkBank [{ id := 1, category := "A" }]) := by
  rfl

/-- Claim C9 (amended): `import_state` raises an error whenever the
snapshot is missing the `states` key, contains a state id that does not
parse as an integer, or contains an invalid `last_seen` timestamp string;
a missing `category_stats` key alone is NOT an error — import succeeds and
substitutes freshly initialized category counters. -/
theorem c9_import_errors (qs : List Question) (snap : Snapshot) :
    (snap.states = none → ∃ msg, import_state qs snap = Except.error msg) ∧
    (∀ entries, snap.states = some entries →
      ((∃ rs, (none, rs) ∈ entries) ∨
       (∃ k rs, (k, rs) ∈ entries ∧ rs.last_seen = some none)) →
      ∃ msg, import_state qs snap = Except.error msg) ∧
    (snap.category_stats = none → ∀ entries, snap.states = some entries →
      (∀ e ∈ entries, ∃ qid, e.1 = some qid ∧
        (lookupA (mkBank qs).states qid).isSome ∧ e.2.last_seen ≠ some none) →
      ∃ b2, import_state qs snap = Except.ok b2 ∧
        b2.category_stats = initCategoryStats qs) := by
  refine ⟨?_, ?_, ?_⟩
  · intro h
    exact ⟨"KeyError: states", by simp [import_state, h]⟩
  · intro entries hsnap hbad
    obtain ⟨msg, hmsg⟩ := importEntries_error entries (mkBank qs) hbad
    exact ⟨msg, by simp [import_state, hsnap, hmsg]⟩
  · intro hnocats entries hsnap hgood
    obtain ⟨bank2, hrun, hq, hc⟩ := importEntries_ok_of_good entries (mkBank qs) hgood
    exact ⟨{ bank2 with category_stats := initCategoryStats qs },
      by simp [import_state, hsnap, hrun, hnocats], rfl⟩

/-- Witness for the amended C9: each malformed-snapshot kind errors on a
concrete input, and the missing-`category_stats` snapshot imports. -/
theorem c9_witness :
    (∃ msg, import_state [{ id := 1, category := "A" }] {}
      = Except.error msg) ∧
    (∃ msg, import_state [{ id := 1, category := "A" }]
      { states := some [(none, rawGood)] } = Except.error msg) ∧
    (∃ msg, import_state [{ id := 1, category := "A" }]
      { states := some [(some 1, rawBadTime)] } = Except.error msg) ∧
    (∃ b2, import_state [{ id := 1, category := "A" }] snapNoCats
      = Except.ok b2 ∧
      b2.category_stats = initCategoryStats [{ id := 1, category := "A" }]) := by
  refine ⟨(c9_import_errors [{ id := 1, category := "A" }] {}).1 rfl,
    (c9_import_errors [{ id := 1, category := "A" }]
      { states := some [(none, rawGood)] }).2.1 _ rfl (Or.inl ⟨rawGood, by simp⟩),
    (c9_import_errors [{ id := 1, category := "A" }]
      { states := some [(some 1, rawBadTime)] }).2.1 _ rfl
      (Or.inr ⟨some 1, rawBadTime, by simp, rfl⟩),
    (c9_import_errors [{ id := 1, category := "A" }] snapNoCats).2.2 rfl [] rfl
      (by intro e he; exact absurd he (by simp))⟩

theorem sample_singleton (r : Sampler) (hr : r.Valid) (a : ℤ) :
    r.sample [a] 1 = [a] := by
  obtain ⟨hlen, hmem, _⟩ := hr.1 [a] 1 (by simp)
  match hl : r.sample [a] 1 with
  | [] => rw [hl] at hlen; simp at hlen
  | x :: xs =>
      rw [hl] at hlen hmem
      have hxs : xs = [] := by
        simp only [List.length_cons] at hlen
        exact List.length_eq_zero.mp (by omega)
      subst hxs
      have hx : x = a := by simpa using hmem x (by simp)
      rw [hx]

theorem sample_zero (r : Sampler) (hr : r.Valid) (l : List ℤ) :
    r.sample l 0 = [] := by
  obtain ⟨hlen, _, _⟩ := hr.1 l 0 (Nat.zero_le _)
  exact List.length_eq_zero.mp hlen

theorem shuffle_pair_same (r : Sampler) (hr : r.Valid) (a : ℤ) :
    r.shuffle [a, a] = [a, a] := by
  have hp := hr.2.2 [a, a]
  obtain ⟨x, y, hxy⟩ := List.length_eq_two.mp (by simpa using hp.length_eq)
  have hx : x = a := by
    have : x ∈ r.shuffle [a, a] := by rw [hxy]; simp
    simpa using hp.mem_iff.mp this
  have hy : y = a := by
    have : y ∈ r.shuffle [a, a] := by rw [hxy]; simp
    simpa using hp.mem_iff.mp this
  rw [hxy, hx, hy]

/-- Claim C2 fails on the code (the untested-question sample does not
exclude ids already drawn into the high-priority sample): on a fresh
one-question bank, `select_questions(10)` returns the single question id
twice, whatever the source of randomness — the returned sequence has a
duplicate. -/
theorem c2_select_duplicate (r : Sampler) (hr : r.Valid) :
    select_questions r bankA 10 0 = some [1, 1] ∧
      ¬ ([1, 1] : List ℤ).Nodup := by
  refine ⟨?_, by simp⟩
  have h1 : r.sample [(1 : ℤ)] 1 = [1] := sample_singleton r hr 1
  have h0 : r.sample ([] : List ℤ) 0 = [] := sample_zero r hr []
  have hsh : r.shuffle [1, 1] = [1, 1] := shuffle_pair_same r hr 1
  have htop : topUp r [(1 : ℤ)] 10 [1, 1] 10 = [1, 1] := by
    show topUp r [(1 : ℤ)] 10 [1, 1] (9 + 1) = [1, 1]
    rw [topUp]
    norm_num
  have ht10 : (10 : ℤ).toNat = 10 := rfl
  simp only [select_questions, bankA, mkBank, initCategoryStats, lookupA]
  norm_num [ht10, h1, h0, hsh, htop, List.take_of_length_le]

/-- Witness for C2 with the concrete deterministic sampler. -/
theorem c2_witness :
    select_questions takeSampler bankA 10 0 = some [1, 1] ∧
      ¬ ([1, 1] : List ℤ).Nodup := by
  refine c2_select_duplicate takeSampler ⟨?_, ?_, ?_⟩
  · intro l k hk
    refine ⟨?_, fun x hx => List.mem_of_mem_take hx, ?_⟩
    · show (l.take k).length = k
      rw [List.length_take]
      omega
    · intro hnd
      exact (List.take_sublist k l).nodup hnd
  · intro l hl
    match l with
    | [] => exact absurd rfl hl
    | x :: xs => simp [takeSampler]
  · intro l
    exact List.Perm.refl l

/-- Claim C3 fails on the code for the empty bank: `select_questions` first
computes the average difficulty as a sum divided by `len(self.states)`,
which on an empty bank is a division by zero — modelled as `none` (a raised
`ZeroDivisionError`), not an empty sequence, for every sampler and every
requested count. -/
theorem c3_empty_bank_error (r : Sampler) (n : ℕ) :
    select_questions r (mkBank []) n 0 = none := rfl

end HskQuiz
